import Mathlib

/-!
Verification of the concurrency and game-loop runtime of the car-racing
simulation skeleton. Shallow embedding: C++ doubles are modelled by rationals
(the claims under study are about exact accumulator arithmetic and control
flow, not rounding), std::unordered_map tables by association lists, and the
effect of invoking a callback or joining a thread by an explicit event list
returned next to the new state.
-/

namespace CarGame

/-- The GameState enumeration of Types.h. -/
inductive GameState
  | Uninitialized | Loading | MainMenu | RaceSetup | Racing | Paused | RaceFinished | Exiting
deriving DecidableEq

/-- The ThreadPriority enumeration of ThreadManager.h. -/
inductive ThreadPriority
  | Low | Normal | High | RealTime
deriving DecidableEq

/-- The ThreadStatus enumeration of ThreadManager.h. -/
inductive ThreadStatus
  | Idle | Running | Paused | Stopping | Stopped
deriving DecidableEq

/-- Constants::FIXED_TIMESTEP of Types.h (1.0 / 60.0). -/
def FIXED_TIMESTEP : ℚ := 1 / 60

/-- Constants::MAX_TIMESTEP of Types.h (1.0 / 30.0). -/
def MAX_TIMESTEP : ℚ := 1 / 30

/-! ## ThreadSafeQueue (ThreadSafeQueue.h)

The queue is used sequentially here (claim C9 concerns the single-producer,
single-consumer sequential contract), so the std::queue payload is modelled
as the list of queued items, front at the head. -/

/-- ThreadSafeQueue::Push (ThreadSafeQueue.h lines 37-41): enqueue at the back. -/
def qPush {α : Type} (q : List α) (x : α) : List α := q ++ [x]

/-- ThreadSafeQueue::TryPop (ThreadSafeQueue.h lines 66-75): if the queue is
empty return nullopt and leave the queue as it is, else remove and return the
front element. -/
def qTryPop {α : Type} (q : List α) : Option α × List α :=
  match q with
  | [] => (none, q)
  | x :: rest => (some x, rest)

/-- ThreadSafeQueue::Pop (ThreadSafeQueue.h lines 50-57): blocks until an item
is available; sequentially it is only ever called on a nonempty queue, where it
removes and returns the front element. -/
def qPop {α : Type} (q : List α) (h : q ≠ []) : α × List α :=
  match q, h with
  | x :: rest, _ => (x, rest)

/-- ThreadSafeQueue::Empty (ThreadSafeQueue.h lines 82-85). -/
def qEmpty {α : Type} (q : List α) : Bool := q.isEmpty

/-- A sequential operation on the queue: a Push of an item or a TryPop. -/
inductive QOp (α : Type)
  | push (x : α)
  | tryPop
deriving DecidableEq

/-- Run a sequence of queue operations from queue q; returns the final queue
and the items the TryPops returned, in order. -/
def qRun {α : Type} : List α → List (QOp α) → List α × List α
  | q, [] => (q, [])
  | q, QOp.push x :: rest => qRun (qPush q x) rest
  | q, QOp.tryPop :: rest =>
      let r := qTryPop q
      let t := qRun r.2 rest
      (t.1, (match r.1 with | some x => [x] | none => []) ++ t.2)

/-- The items pushed by a sequence of operations, in order. -/
def qPushes {α : Type} (ops : List (QOp α)) : List α :=
  ops.filterMap (fun op => match op with | QOp.push x => some x | QOp.tryPop => none)

/-! ## ThreadManager registry tables (ThreadManager.cpp)

The registry state is the part of ThreadManager the table-level claims (C4,
C5, C7, C10) read and write under the registry mutex: the worker table, the
pool table, the cap, the initialized flag and the active counter. The
std::thread handle, mutexes and condition variables are not data; joining and
notifying appear as events in the Shutdown trace below. -/

/-- The per-worker descriptor fields of ThreadManager::ThreadInfo (name is the
table key). -/
structure WorkerInfo where
  priority : ThreadPriority
  status : ThreadStatus
  shouldStop : Bool
  isPaused : Bool
deriving DecidableEq

/-- ThreadManager::ThreadPoolInfo: the names of the pool workers (the task
queue is a ThreadSafeQueue, modelled above). -/
structure PoolInfo where
  threadNames : List String
deriving DecidableEq

/-- The registry state of ThreadManager. -/
structure TMState where
  threads : List (String × WorkerInfo)
  pools : List (String × PoolInfo)
  maxThreads : ℕ
  initialized : Bool
  activeThreadCount : ℕ
deriving DecidableEq

/-- Lookup in the worker table (threads_.find). -/
def lookupW (name : String) : List (String × WorkerInfo) → Option WorkerInfo
  | [] => none
  | (n, w) :: rest => if n = name then some w else lookupW name rest

namespace ThreadManager

/-- ThreadManager::ThreadExists (ThreadManager.cpp lines 288-291). -/
def ThreadExists (tm : TMState) (name : String) : Bool :=
  (lookupW name tm.threads).isSome

/-- ThreadManager::GetThreadStatus (ThreadManager.cpp lines 276-286): a name
not in the table logs an error and returns ThreadStatus::Stopped, otherwise
the stored status is returned. -/
def GetThreadStatus (tm : TMState) (name : String) : ThreadStatus :=
  match lookupW name tm.threads with
  | none => ThreadStatus.Stopped
  | some w => w.status

/-- ThreadManager::GetActiveThreadCount (ThreadManager.cpp lines 293-295). -/
def GetActiveThreadCount (tm : TMState) : ℕ := tm.activeThreadCount

/-- ThreadManager::Initialize (ThreadManager.cpp lines 26-50). hc stands for
the value std::thread::hardware_concurrency() returned. Already initialized:
warn and return false. maxThreads = 0: use hc, raised to 2 when below 2. -/
def Initialize (tm : TMState) (maxThreads hc : ℕ) : Bool × TMState :=
  if tm.initialized then (false, tm)
  else
    let cap := if maxThreads = 0 then (if hc < 2 then 2 else hc) else maxThreads
    (true, { tm with maxThreads := cap, initialized := true })

end ThreadManager

/-- The outcome of a ThreadManager member call whose body locks the
non-recursive mutex_: either a returned value, or the undefined behavior of
re-locking a std::mutex the calling thread already holds (on the usual
implementations a self-deadlock: the call never returns). -/
inductive LockResult (α : Type)
  | ok (a : α)
  | selfDeadlock
deriving DecidableEq

namespace ThreadManager

/-- ThreadManager::ThreadExists (ThreadManager.cpp lines 288-291) with its
lock acquisition explicit: line 289 locks mutex_ before the table lookup.
held says whether the calling thread already holds mutex_; then the
lock_guard re-locks a non-recursive std::mutex, which is undefined
behavior, modelled as selfDeadlock. -/
def ThreadExistsLocked (held : Bool) (tm : TMState) (name : String) :
    LockResult Bool :=
  if held then LockResult.selfDeadlock
  else LockResult.ok (lookupW name tm.threads).isSome

/-- ThreadManager::CreateThread (ThreadManager.cpp lines 92-183) restricted
to the registry table, with the mutex_ acquisitions explicit. Line 96 locks
mutex_ for the whole body (the external caller does not hold it); the
uninitialized check (lines 98-101) runs under that lock and returns false.
The name check (line 103) then calls ThreadExists, whose own lock_guard
(line 289) re-locks mutex_ while it is still held. The branches after that
call are written from lines 103-182 as they would run if the nested call
returned: the cap check, then a descriptor with status Idle and cleared
flags is recorded; priorityApplied stands for the result of
SetNativeThreadPriority, whose failure is only logged (lines 174-177), the
thread being registered and true returned either way. The spawned wrapper
protocol is modelled separately as a transition system (see the WStep
section). -/
def CreateThread (tm : TMState) (name : String) (priority : ThreadPriority)
    (priorityApplied : Bool) : LockResult (Bool × TMState) :=
  if !tm.initialized then LockResult.ok (false, tm)
  else
    match ThreadExistsLocked true tm name with
    | LockResult.selfDeadlock => LockResult.selfDeadlock
    | LockResult.ok taken =>
        if taken then LockResult.ok (false, tm)
        else if tm.maxThreads ≤ tm.threads.length then LockResult.ok (false, tm)
        else
          let w : WorkerInfo :=
            { priority := priority, status := ThreadStatus.Idle,
              shouldStop := false, isPaused := false }
          LockResult.ok (true, { tm with threads := tm.threads ++ [(name, w)] })

end ThreadManager

/-! ## GameEngine lifecycle (GameEngine.cpp)

The engine state is projected to the fields the lifecycle claims (C1, C6)
read and write: the game state cell, the exit flag and code, and which states
have a registered callback. Invoking a callback is an event: SetGameState and
Shutdown return the list of callback invocations they perform, in order, so
that firing a callback exactly once and synchronously is the returned list
holding exactly one entry. -/

/-- The lifecycle fields of GameEngine. callbacks s records whether
stateCallbacks_ holds an entry for s (RegisterStateCallback). -/
structure EngineSt where
  gameState : GameState
  exitRequested : Bool
  exitCode : ℤ
  callbacks : GameState → Bool

namespace GameEngine

/-- GameEngine::SetGameState (GameEngine.cpp lines 222-240): when the new
state equals the current one, return with no write and no callback; else
write the state cell, then invoke the callback registered for the new state,
if any. Returns the new engine and the invocation list. -/
def SetGameState (e : EngineSt) (s : GameState) : EngineSt × List GameState :=
  let oldState := e.gameState
  if oldState = s then (e, [])
  else
    let e2 := { e with gameState := s }
    if e2.callbacks s then (e2, [s]) else (e2, [])

/-- GameEngine::RequestExit (GameEngine.cpp lines 212-216). -/
def RequestExit (e : EngineSt) (code : ℤ) : EngineSt :=
  { e with exitRequested := true, exitCode := code }

/-- GameEngine::Shutdown (GameEngine.cpp lines 99-127) projected to the
lifecycle fields: from Uninitialized it returns at once; otherwise it sets
the state to Exiting (through SetGameState, so an Exiting callback fires),
tears the subsystems down, and resets gameState_ to Uninitialized,
exitRequested_ to false and exitCode_ to 0 (lines 115-117). -/
def Shutdown (e : EngineSt) : EngineSt × List GameState :=
  if e.gameState = GameState.Uninitialized then (e, [])
  else
    let r := SetGameState e GameState.Exiting
    ({ r.1 with gameState := GameState.Uninitialized,
                exitRequested := false, exitCode := 0 }, r.2)

/-- The main loop of GameEngine::Run (GameEngine.cpp lines 140-202) projected
to exit handling: the loop condition !exitRequested_ is tested at the top of
each iteration, and during an iteration an external event may call
RequestExit(code) (input handler, demo thread); some c delivers such a call,
none a frame without one. The frame list ending models only terminating
runs. -/
def runLoop (e : EngineSt) : List (Option ℤ) → EngineSt
  | [] => e
  | ev :: rest =>
      if e.exitRequested then e
      else runLoop (match ev with | some c => RequestExit e c | none => e) rest

/-- GameEngine::Run (GameEngine.cpp lines 129-210) projected to state and
exit handling: on Uninitialized, log an error and return -1; otherwise loop,
then call Shutdown(), then return the exitCode_ field as it stands after
Shutdown (line 209 reads the field line 117 has just reset). -/
def Run (e : EngineSt) (events : List (Option ℤ)) : ℤ × EngineSt :=
  if e.gameState = GameState.Uninitialized then (-1, e)
  else
    let e2 := runLoop e events
    let s := Shutdown e2
    (s.1.exitCode, s.1)

end GameEngine

/-- An initialized engine as Initialize leaves it (state Loading), with no
callbacks registered. -/
def loadedEngine : EngineSt :=
  { gameState := GameState.Loading, exitRequested := false, exitCode := 0,
    callbacks := fun _ => false }

/-- An engine that never got initialized. -/
def uninitEngine : EngineSt :=
  { gameState := GameState.Uninitialized, exitRequested := false, exitCode := 0,
    callbacks := fun _ => false }

/-! ## The main-loop timing (GameEngine.cpp lines 140-202)

The per-iteration timing of GameEngine::Run: measure the raw delta, clamp it,
drain the accumulator in fixed steps, call Update with the clamped delta.
Doubles are modelled by rationals. The fixed step is positive in every
reachable engine state: the constructor sets Constants::FIXED_TIMESTEP = 1/60
and SetFixedTimeStep (GameEngine.cpp lines 282-284) floors its argument at
0.001, so the drain loop is defined under that invariant, carried as the
first conjunct of its guard. -/

/-- The delta-time clamp (GameEngine.cpp lines 148-151):
if deltaTime_ greater than Constants::MAX_TIMESTEP, deltaTime_ becomes
MAX_TIMESTEP. -/
def clampDelta (rawDt : ℚ) : ℚ :=
  if rawDt > MAX_TIMESTEP then MAX_TIMESTEP else rawDt

/-- The fixed-update drain (GameEngine.cpp lines 180-183): while the
accumulator is at least the fixed step, call FixedUpdate(fixedTimeStep_) and
subtract the step. Returns how many FixedUpdate calls were made and the final
accumulator. The 0 < step conjunct records the engine invariant above (with a
nonpositive step the C++ loop would not terminate). -/
def fixedLoop (step acc : ℚ) : ℕ × ℚ :=
  if h : 0 < step ∧ step ≤ acc then
    let r := fixedLoop step (acc - step)
    (r.1 + 1, r.2)
  else (0, acc)
termination_by ⌊acc / step⌋₊
decreasing_by
  have h1 : (1 : ℚ) ≤ acc / step := (one_le_div h.1).mpr h.2
  have hne : step ≠ 0 := ne_of_gt h.1
  have h2 : (acc - step) / step = acc / step - 1 := by
    rw [sub_div, div_self hne]
  rw [h2]
  have h3 : ⌊acc / step - 1⌋₊ = ⌊acc / step⌋₊ - 1 := by
    simpa using Nat.floor_sub_nat (acc / step) 1
  have h4 : 1 ≤ ⌊acc / step⌋₊ := Nat.le_floor (by exact_mod_cast h1)
  omega

/-- One iteration of the main loop restricted to its timing effects: the
clamped delta, the accumulator drain, and the Update call receiving the
clamped delta (GameEngine.cpp lines 144-190). -/
structure FrameOut where
  updateCall : ℚ
  fixedCalls : ℕ
deriving DecidableEq

/-- One loop iteration: clamp the raw delta, add it to the accumulator and
drain; Update(deltaTime_) receives the clamped delta. Returns the new
accumulator and the calls the iteration issued. -/
def loopIter (step acc rawDt : ℚ) : ℚ × FrameOut :=
  let dt := clampDelta rawDt
  let f := fixedLoop step (acc + dt)
  (f.2, { updateCall := dt, fixedCalls := f.1 })

/-- Successive loop iterations over a list of raw measured deltas, threading
the accumulator. Returns the final accumulator and the per-frame calls. -/
def loopRun (step acc : ℚ) : List ℚ → ℚ × List FrameOut
  | [] => (acc, [])
  | raw :: rest =>
      let i := loopIter step acc raw
      let r := loopRun step i.1 rest
      (r.1, i.2 :: r.2)

/-! ## ThreadManager::Shutdown (ThreadManager.cpp lines 52-90)

Shutdown walks the worker table; for every descriptor whose status is not
Stopped it sets the stop flag, clears the pause flag and notifies when the
worker is paused, and joins the thread; then it clears both tables, zeroes
the active counter and resets the initialized flag. The side effects on the
running threads are recorded as a trace of actions so that their order
(every join before the tables are dropped) is part of the model. -/

/-- An observable action of ThreadManager::Shutdown. -/
inductive SAction
  | setStop (name : String)
  | unpark (name : String)
  | join (name : String)
  | dropAll
deriving DecidableEq

/-- The actions Shutdown performs for one table entry (the loop body, lines
62-84): nothing when the status is already Stopped; otherwise set the stop
flag, unpark when paused, join. -/
def stopActs (p : String × WorkerInfo) : List SAction :=
  if p.2.status = ThreadStatus.Stopped then []
  else
    [SAction.setStop p.1]
      ++ (if p.2.status = ThreadStatus.Paused then [SAction.unpark p.1] else [])
      ++ [SAction.join p.1]

namespace ThreadManager

/-- ThreadManager::Shutdown (ThreadManager.cpp lines 52-90): uninitialized
returns at once; else stop and join every non-Stopped worker in table order,
then clear threads and pools, zero the counter, reset initialized. Returns the
new registry and the action trace, dropAll standing for the final
threads_.clear() and threadPools_.clear(). -/
def Shutdown (tm : TMState) : TMState × List SAction :=
  if !tm.initialized then (tm, [])
  else
    ({ tm with threads := [], pools := [],
               activeThreadCount := 0, initialized := false },
     (tm.threads.map stopActs).join ++ [SAction.dropAll])

end ThreadManager

/-! ## The worker wrapper protocol as a transition system (ThreadManager.cpp
lines 121-168)

Claim C3 quantifies over the interleavings of the wrapper protocol with the
registry, so the wrapper is embedded as a small-step program. Each program
point is the next atomic action of the spawned thread:

  start      about to run status = Running            (line 122)
  incr       about to run activeThreadCount_++        (line 123)
  loopHead   at the while test / pause check / body   (lines 128-153)
  pausedWait waiting on pauseCondition, status Paused (lines 133-136)
  exitSeq    about to run status = Stopping           (line 163)
  decr       about to run activeThreadCount_--        (line 166)
  finalWrite about to run status = Stopped            (line 167)
  done       the wrapper returned

The registry operations interleaved with the wrapper are the flag writes of
StopThread / PauseThread / ResumeThread / Shutdown (the registry writes a
worker status itself only after the join, when the wrapper has already
written Stopped, a no-op not modelled) and the counter read of
GetActiveThreadCount, which reads the cnt field of a reachable state. -/

/-- A wrapper program point. -/
inductive WPC
  | start | incr | loopHead | pausedWait | exitSeq | decr | finalWrite | done
deriving DecidableEq

/-- One worker as the protocol sees it: its program point, the descriptor
status, the two flags, and whether its name contains the substring Worker
(line 151 keeps such workers looping). -/
structure WState where
  pc : WPC
  status : ThreadStatus
  stopFlag : Bool
  pauseFlag : Bool
  isWorkerName : Bool
deriving DecidableEq

/-- A worker as CreateThread leaves it at spawn time: descriptor status Idle,
flags clear, wrapper about to run its first statement. -/
def initW (b : Bool) : WState :=
  { pc := WPC.start, status := ThreadStatus.Idle,
    stopFlag := false, pauseFlag := false, isWorkerName := b }

/-- One atomic step of a worker (its wrapper thread, or a registry thread
writing its flags). The integer is the change to activeThreadCount_. -/
inductive WStep : WState → ℤ → WState → Prop
  /-- Line 122: status = Running. -/
  | startRun (w : WState) (h : w.pc = WPC.start) :
      WStep w 0 { w with pc := WPC.incr, status := ThreadStatus.Running }
  /-- Line 123: activeThreadCount_++. -/
  | incrCnt (w : WState) (h : w.pc = WPC.incr) :
      WStep w 1 { w with pc := WPC.loopHead }
  /-- Lines 132-134: isPaused seen set, status = Paused, wait begins. -/
  | pauseEnter (w : WState) (h : w.pc = WPC.loopHead) (hp : w.pauseFlag = true) :
      WStep w 0 { w with pc := WPC.pausedWait, status := ThreadStatus.Paused }
  /-- Lines 134-142: the wait returns (not paused any more, or stopping),
  status = Running, then break out when shouldStop. -/
  | wake (w : WState) (h : w.pc = WPC.pausedWait)
      (hw : w.pauseFlag = false ∨ w.stopFlag = true) :
      WStep w 0 { w with pc := if w.stopFlag then WPC.exitSeq else WPC.loopHead,
                         status := ThreadStatus.Running }
  /-- Lines 147-153: the body ran and the name contains Worker, back to the
  while test. -/
  | bodyIter (w : WState) (h : w.pc = WPC.loopHead) (hw : w.isWorkerName = true) :
      WStep w 0 w
  /-- The loop is left: the while test saw shouldStop, or the body of a
  one-shot worker returned (line 151), or the body threw (lines 155-161). -/
  | loopExit (w : WState) (h : w.pc = WPC.loopHead) :
      WStep w 0 { w with pc := WPC.exitSeq }
  /-- Line 163: status = Stopping. -/
  | stopping (w : WState) (h : w.pc = WPC.exitSeq) :
      WStep w 0 { w with pc := WPC.decr, status := ThreadStatus.Stopping }
  /-- Line 166: activeThreadCount_--. -/
  | decrCnt (w : WState) (h : w.pc = WPC.decr) :
      WStep w (-1) { w with pc := WPC.finalWrite }
  /-- Line 167: status = Stopped. -/
  | stopped (w : WState) (h : w.pc = WPC.finalWrite) :
      WStep w 0 { w with pc := WPC.done, status := ThreadStatus.Stopped }
  /-- StopThread / Shutdown set the stop flag (lines 201, 66). -/
  | setStop (w : WState) : WStep w 0 { w with stopFlag := true }
  /-- PauseThread sets the pause flag of a running worker (lines 234-243). -/
  | setPause (w : WState) (h : w.status = ThreadStatus.Running) :
      WStep w 0 { w with pauseFlag := true }
  /-- ResumeThread / StopThread / Shutdown clear the pause flag of a paused
  worker and notify (lines 260-270, 204-210, 69-74). -/
  | clearPause (w : WState) (h : w.status = ThreadStatus.Paused) :
      WStep w 0 { w with pauseFlag := false }

/-- The registry as the protocol sees it: the registered workers and the
atomic activeThreadCount_ (an unsigned counter in the source; the protocol
keeps it equal to a count, so an integer models it without wraparound). -/
structure RegSys where
  workers : List WState
  cnt : ℤ
deriving DecidableEq

/-- One step of the whole registry: some worker takes a WStep, the counter
absorbs its delta. -/
inductive SysStep : RegSys → RegSys → Prop
  | step (pre post : List WState) (w w2 : WState) (d : ℤ) (cnt : ℤ)
      (hw : WStep w d w2) :
      SysStep ⟨pre ++ w :: post, cnt⟩ ⟨pre ++ w2 :: post, cnt + d⟩

/-- The reachable registry states: any set of freshly created workers, then
any interleaving of steps. -/
inductive Reach : RegSys → Prop
  | init (flags : List Bool) : Reach ⟨flags.map initW, 0⟩
  | step {s t : RegSys} : Reach s → SysStep s t → Reach t

/-- Whether a status counts as active for the claim (Running or Paused). -/
def statusLive : ThreadStatus → Bool
  | ThreadStatus.Running => true
  | ThreadStatus.Paused => true
  | _ => false

/-- The number of registered workers whose status is Running or Paused. -/
def liveCount (ws : List WState) : ℕ :=
  ws.countP (fun w => statusLive w.status)

/-- The program points lying between the increment and the decrement of
activeThreadCount_. -/
def pcCounted : WPC → Bool
  | WPC.loopHead => true
  | WPC.pausedWait => true
  | WPC.exitSeq => true
  | WPC.decr => true
  | _ => false

/-- The number of workers between their increment and their decrement. -/
def cntCount (ws : List WState) : ℕ :=
  ws.countP (fun w => pcCounted w.pc)

/-- The descriptor status the wrapper protocol has last written at each
program point. -/
def pcStatus : WPC → ThreadStatus
  | WPC.start => ThreadStatus.Idle
  | WPC.incr => ThreadStatus.Running
  | WPC.loopHead => ThreadStatus.Running
  | WPC.pausedWait => ThreadStatus.Paused
  | WPC.exitSeq => ThreadStatus.Running
  | WPC.decr => ThreadStatus.Stopping
  | WPC.finalWrite => ThreadStatus.Stopping
  | WPC.done => ThreadStatus.Stopped

/-- The one worker of the C3 counterexample: it has written status = Running
and not yet incremented the counter. -/
def cexW : WState :=
  { pc := WPC.incr, status := ThreadStatus.Running,
    stopFlag := false, pauseFlag := false, isWorkerName := false }

/-! ## Concrete states used by the witnesses. -/

/-- An initialized empty registry with cap 4. -/
def tmEmpty : TMState :=
  { threads := [], pools := [], maxThreads := 4,
    initialized := true, activeThreadCount := 0 }

/-- A registry never initialized. -/
def tmFresh : TMState :=
  { threads := [], pools := [], maxThreads := 0,
    initialized := false, activeThreadCount := 0 }

/-- A worker descriptor with the given status. -/
def mkW (s : ThreadStatus) : WorkerInfo :=
  { priority := ThreadPriority.Normal, status := s,
    shouldStop := false, isPaused := false }

/-- An initialized registry holding a paused worker A, a running pool worker
and an already stopped worker. -/
def tmBusy : TMState :=
  { threads := [("A", mkW ThreadStatus.Paused),
                ("GeneralPool_Worker0", mkW ThreadStatus.Running),
                ("B", mkW ThreadStatus.Stopped)],
    pools := [("GeneralPool", { threadNames := ["GeneralPool_Worker0"] })],
    maxThreads := 4, initialized := true, activeThreadCount := 2 }

/-- An engine in the main menu whose MainMenu state has a callback
registered. -/
def menuEngine : EngineSt :=
  { gameState := GameState.Loading, exitRequested := false, exitCode := 0,
    callbacks := fun s => s == GameState.MainMenu }

/-- A clamped delta never exceeds MAX_TIMESTEP. -/
theorem clampDelta_le_max (rawDt : ℚ) : clampDelta rawDt ≤ MAX_TIMESTEP := by
  unfold clampDelta
  split
  · exact le_refl _
  · exact le_of_not_lt (by assumption)

/-- Clamping a nonnegative delta keeps it nonnegative. -/
theorem clampDelta_nonneg {rawDt : ℚ} (h : 0 ≤ rawDt) : 0 ≤ clampDelta rawDt := by
  unfold clampDelta
  split
  · norm_num [MAX_TIMESTEP]
  · exact h

/-- Closed form of the drain loop: with a positive step it performs
floor(acc / step) iterations and leaves the remainder. -/
theorem fixedLoop_eq (step : ℚ) (hstep : 0 < step) (acc : ℚ) :
    fixedLoop step acc = (⌊acc / step⌋₊, acc - (⌊acc / step⌋₊ : ℚ) * step) := by
  induction acc using fixedLoop.induct step with
  | case1 acc h ih =>
    have h1 : (1 : ℚ) ≤ acc / step := (one_le_div h.1).mpr h.2
    have h2 : (acc - step) / step = acc / step - 1 := by
      rw [sub_div, div_self (ne_of_gt h.1)]
    have h3 : ⌊(acc - step) / step⌋₊ = ⌊acc / step⌋₊ - 1 := by
      rw [h2]
      simpa using Nat.floor_sub_nat (acc / step) 1
    have h4 : 1 ≤ ⌊acc / step⌋₊ := Nat.le_floor (by exact_mod_cast h1)
    have h5 : ((⌊acc / step⌋₊ - 1 : ℕ) : ℚ) = (⌊acc / step⌋₊ : ℚ) - 1 := by
      push_cast [Nat.cast_sub h4]
      ring
    rw [fixedLoop, dif_pos h, ih, h3]
    simp only [Prod.mk.injEq]
    constructor
    · omega
    · rw [h5]
      ring
  | case2 acc h =>
    have hlt : acc < step := by
      by_contra hc
      exact h ⟨hstep, le_of_not_lt hc⟩
    have hq : acc / step < 1 := (div_lt_one hstep).mpr hlt
    have h0 : ⌊acc / step⌋₊ = 0 := Nat.floor_eq_zero.mpr hq
    rw [fixedLoop, dif_neg h]
    simp [h0]

/-- The accumulator law over a run: starting below the step with a nonnegative
accumulator and fed nonnegative raw deltas, the loop issues in total
floor((acc + sum of clamped deltas) / step) FixedUpdate calls and the final
accumulator is the remainder. -/
theorem loopRun_spec (step : ℚ) (hstep : 0 < step) (raws : List ℚ) :
    ∀ acc : ℚ, 0 ≤ acc → acc < step → (∀ r ∈ raws, 0 ≤ r) →
      (((loopRun step acc raws).2.map FrameOut.fixedCalls).sum
         = ⌊(acc + (raws.map clampDelta).sum) / step⌋₊) ∧
      ((loopRun step acc raws).1
         = acc + (raws.map clampDelta).sum
             - (⌊(acc + (raws.map clampDelta).sum) / step⌋₊ : ℚ) * step) := by
  have hne : step ≠ 0 := ne_of_gt hstep
  induction raws with
  | nil =>
    intro acc h0 h1 _
    have hq : acc / step < 1 := (div_lt_one hstep).mpr h1
    have hz : ⌊acc / step⌋₊ = 0 := Nat.floor_eq_zero.mpr hq
    simp [loopRun, hz]
  | cons raw rest ih =>
    intro acc h0 h1 hmem
    have hdt0 : 0 ≤ clampDelta raw :=
      clampDelta_nonneg (hmem raw (List.mem_cons_self raw rest))
    have hx0 : 0 ≤ acc + clampDelta raw := by linarith
    have hfl : fixedLoop step (acc + clampDelta raw)
        = (⌊(acc + clampDelta raw) / step⌋₊,
           acc + clampDelta raw - (⌊(acc + clampDelta raw) / step⌋₊ : ℚ) * step) :=
      fixedLoop_eq step hstep (acc + clampDelta raw)
    have hr1lo : (⌊(acc + clampDelta raw) / step⌋₊ : ℚ) * step ≤ acc + clampDelta raw := by
      have hle : ((⌊(acc + clampDelta raw) / step⌋₊ : ℕ) : ℚ) ≤ (acc + clampDelta raw) / step :=
        Nat.floor_le (div_nonneg hx0 hstep.le)
      exact (le_div_iff₀ hstep).mp hle
    have hr1hi : acc + clampDelta raw - (⌊(acc + clampDelta raw) / step⌋₊ : ℚ) * step < step := by
      have hlt : (acc + clampDelta raw) / step < ⌊(acc + clampDelta raw) / step⌋₊ + 1 :=
        Nat.lt_floor_add_one ((acc + clampDelta raw) / step)
      have hx : acc + clampDelta raw < ((⌊(acc + clampDelta raw) / step⌋₊ : ℚ) + 1) * step :=
        (div_lt_iff₀ hstep).mp hlt
      linarith
    have hsum0 : 0 ≤ (rest.map clampDelta).sum := by
      apply List.sum_nonneg
      intro y hy
      obtain ⟨r, hr, rfl⟩ := List.mem_map.mp hy
      exact clampDelta_nonneg (hmem r (List.mem_cons_of_mem raw hr))
    have ihr := ih (acc + clampDelta raw - (⌊(acc + clampDelta raw) / step⌋₊ : ℚ) * step)
      (by linarith) hr1hi (fun r hr => hmem r (List.mem_cons_of_mem raw hr))
    have hsplit : (acc + (clampDelta raw + (rest.map clampDelta).sum)) / step
        = (acc + clampDelta raw - (⌊(acc + clampDelta raw) / step⌋₊ : ℚ) * step
            + (rest.map clampDelta).sum) / step
          + (⌊(acc + clampDelta raw) / step⌋₊ : ℚ) := by
      field_simp
      ring
    have hq0 : 0 ≤ (acc + clampDelta raw - (⌊(acc + clampDelta raw) / step⌋₊ : ℚ) * step
        + (rest.map clampDelta).sum) / step :=
      div_nonneg (by linarith) hstep.le
    have hfloor : ⌊(acc + (clampDelta raw + (rest.map clampDelta).sum)) / step⌋₊
        = ⌊(acc + clampDelta raw - (⌊(acc + clampDelta raw) / step⌋₊ : ℚ) * step
            + (rest.map clampDelta).sum) / step⌋₊
          + ⌊(acc + clampDelta raw) / step⌋₊ := by
      rw [hsplit]
      exact_mod_cast Nat.floor_add_nat hq0 ⌊(acc + clampDelta raw) / step⌋₊
    have hcast : ((⌊(acc + clampDelta raw - (⌊(acc + clampDelta raw) / step⌋₊ : ℚ) * step
        + (rest.map clampDelta).sum) / step⌋₊
          + ⌊(acc + clampDelta raw) / step⌋₊ : ℕ) : ℚ)
        = (⌊(acc + clampDelta raw - (⌊(acc + clampDelta raw) / step⌋₊ : ℚ) * step
            + (rest.map clampDelta).sum) / step⌋₊ : ℚ)
          + (⌊(acc + clampDelta raw) / step⌋₊ : ℚ) := by push_cast; ring
    simp only [loopRun, loopIter, hfl, List.map_cons, List.sum_cons, List.map_map]
    constructor
    · rw [ihr.1, hfloor]
      omega
    · rw [ihr.2, hfloor, hcast]
      ring

/-- The queue run invariant: the popped items followed by the remaining queue
are the initial queue followed by the pushed items. -/
theorem qRun_append {α : Type} (ops : List (QOp α)) :
    ∀ q : List α, (qRun q ops).2 ++ (qRun q ops).1 = q ++ qPushes ops := by
  induction ops with
  | nil =>
    intro q
    simp [qRun, qPushes]
  | cons op rest ih =>
    intro q
    cases op with
    | push x =>
      have h := ih (qPush q x)
      simp only [qRun, qPushes, List.filterMap_cons] at h ⊢
      rw [h]
      simp [qPush]
    | tryPop =>
      cases q with
      | nil =>
        have h := ih []
        simp only [qRun, qTryPop, qPushes, List.filterMap_cons] at h ⊢
        simpa using h
      | cons y ys =>
        have h := ih ys
        simp only [qRun, qTryPop, qPushes, List.filterMap_cons] at h ⊢
        simp [h]

/-- C9: for the thread-safe queue used sequentially, the sequence of items
returned by TryPop is the sequence passed to Push in the same order (their
concatenation with the remaining queue is the pushed sequence, so a drained
run returns exactly the pushed sequence), and TryPop returns an empty
optional exactly when the queue is empty, leaving the queue unchanged then. -/
theorem c9_queue_fifo {α : Type} (ops : List (QOp α)) (q : List α) :
    ((qRun [] ops).2 ++ (qRun [] ops).1 = qPushes ops) ∧
    ((qRun [] ops).1 = [] → (qRun [] ops).2 = qPushes ops) ∧
    ((qTryPop q).1 = none ↔ q = []) ∧
    ((qTryPop q).1 = none → (qTryPop q).2 = q) := by
  refine ⟨?_, ?_, ?_, ?_⟩
  · simpa using qRun_append ops []
  · intro hq
    have h := qRun_append ops []
    rw [hq] at h
    simpa using h
  · cases q <;> simp [qTryPop]
  · cases q with
    | nil => intro _; rfl
    | cons y ys => intro h; simp [qTryPop] at h

/-- C9 witness: a concrete run with three pushes and three pops returns the
pushed items in order, and TryPop on the empty queue returns none. -/
theorem c9_queue_fifo_witness :
    (qRun ([] : List ℕ)
        [QOp.push 1, QOp.push 2, QOp.tryPop, QOp.push 3, QOp.tryPop, QOp.tryPop]).2
      = [1, 2, 3] ∧ (qTryPop ([] : List ℕ)).1 = none := by
  have h := c9_queue_fifo
      [QOp.push 1, QOp.push 2, QOp.tryPop, QOp.push 3, QOp.tryPop, QOp.tryPop]
      ([] : List ℕ)
  constructor
  · have h2 := h.2.1 (by decide)
    rw [h2]
    decide
  · exact h.2.2.1.mpr rfl

/-- C10: GetThreadStatus on a name with no entry in the worker table returns
ThreadStatus.Stopped, and on a registered worker it returns the stored
status, so a worker whose status is Stopped and a never-created worker are
indistinguishable through this query. -/
theorem c10_status_missing (tm : TMState) (name : String) :
    (ThreadManager.ThreadExists tm name = false →
       ThreadManager.GetThreadStatus tm name = ThreadStatus.Stopped) ∧
    (∀ w : WorkerInfo, lookupW name tm.threads = some w →
       ThreadManager.GetThreadStatus tm name = w.status) := by
  constructor
  · intro h
    unfold ThreadManager.GetThreadStatus
    unfold ThreadManager.ThreadExists at h
    cases hl : lookupW name tm.threads with
    | none => rfl
    | some w =>
      rw [hl] at h
      simp at h
  · intro w hw
    unfold ThreadManager.GetThreadStatus
    rw [hw]

/-- C10 witness: the registry tmBusy answers Stopped both for the stopped
worker B and for the never-created name C. -/
theorem c10_status_missing_witness :
    ThreadManager.GetThreadStatus tmBusy "C" = ThreadStatus.Stopped ∧
    ThreadManager.GetThreadStatus tmBusy "B" = ThreadStatus.Stopped := by
  constructor
  · exact (c10_status_missing tmBusy "C").1 (by decide)
  · exact (c10_status_missing tmBusy "B").2 (mkW ThreadStatus.Stopped) (by decide)

/-- C7: Initialize with maxThreads = 0 sets the cap to the hardware
concurrency raised to 2 when below 2; with a nonzero argument it sets the cap
to that argument; called on an already initialized registry it returns false
and changes nothing, the configured cap included. -/
theorem c7_init_cap (tm : TMState) (m hc : ℕ) :
    (tm.initialized = true → ThreadManager.Initialize tm m hc = (false, tm)) ∧
    (tm.initialized = false →
       (ThreadManager.Initialize tm m hc).1 = true ∧
       (ThreadManager.Initialize tm m hc).2.maxThreads
         = (if m = 0 then max 2 hc else m)) := by
  constructor
  · intro h
    unfold ThreadManager.Initialize
    rw [h]
    rfl
  · intro h
    unfold ThreadManager.Initialize
    rw [h]
    refine ⟨rfl, ?_⟩
    by_cases hm : m = 0
    · simp only [hm, if_pos rfl]
      by_cases hhc : hc < 2
      · simp [hhc, Nat.max_eq_left (le_of_lt hhc)]
      · simp [hhc, Nat.max_eq_right (le_of_not_lt hhc)]
    · simp [hm]

/-- C7 witness: a second Initialize on tmEmpty fails and keeps the cap 4; a
first Initialize with maxThreads 0 and hardware concurrency 1 sets the cap to
2, with hardware concurrency 8 to 8, and with maxThreads 3 to 3. -/
theorem c7_init_cap_witness :
    ThreadManager.Initialize tmEmpty 0 8 = (false, tmEmpty) ∧
    (ThreadManager.Initialize tmFresh 0 1).2.maxThreads = 2 ∧
    (ThreadManager.Initialize tmFresh 0 8).2.maxThreads = 8 ∧
    (ThreadManager.Initialize tmFresh 3 8).2.maxThreads = 3 := by
  refine ⟨(c7_init_cap tmEmpty 0 8).1 rfl, ?_, ?_, ?_⟩
  · rw [((c7_init_cap tmFresh 0 1).2 rfl).2]
    decide
  · rw [((c7_init_cap tmFresh 0 8).2 rfl).2]
    decide
  · rw [((c7_init_cap tmFresh 3 8).2 rfl).2]
    decide

/-- C4 (the divergence): on an uninitialized registry CreateThread returns
false under its single lock, as the claim says; but on an initialized
registry every call reaches line 103 holding mutex_ (locked at line 96) and
there calls ThreadExists, whose lock_guard (line 289) re-locks the same
non-recursive std::mutex: the call never returns, so the name-taken,
cap-reached and register-and-return-true outcomes the claim asserts are
never produced, whatever the name, the priority or the priority-application
result. -/
theorem c4_create_thread_deadlock (tm : TMState) (name : String)
    (priority : ThreadPriority) (pOk : Bool) :
    (tm.initialized = false →
       ThreadManager.CreateThread tm name priority pOk
         = LockResult.ok (false, tm)) ∧
    (tm.initialized = true →
       ThreadManager.CreateThread tm name priority pOk
         = LockResult.selfDeadlock) := by
  constructor
  · intro h
    unfold ThreadManager.CreateThread
    rw [h]
    rfl
  · intro h
    unfold ThreadManager.CreateThread ThreadManager.ThreadExistsLocked
    rw [h]
    rfl

/-- C4 witness: the uninitialized registry tmFresh gets false back; the
initialized empty registry tmEmpty, where the claim promises a successful
registration, self-deadlocks instead. -/
theorem c4_create_thread_deadlock_witness :
    ThreadManager.CreateThread tmFresh "A" ThreadPriority.Normal true
      = LockResult.ok (false, tmFresh) ∧
    ThreadManager.CreateThread tmEmpty "A" ThreadPriority.Normal false
      = LockResult.selfDeadlock := by
  exact ⟨(c4_create_thread_deadlock tmFresh "A" ThreadPriority.Normal true).1 rfl,
         (c4_create_thread_deadlock tmEmpty "A" ThreadPriority.Normal false).2 rfl⟩

/-- C6: SetGameState with the current state changes nothing and fires no
callback; with a different state it writes the state cell and leaves the rest
of the engine unchanged, and the invocation list holds the callback for the
new state exactly once when one is registered and is empty when none is. -/
theorem c6_set_state (e : EngineSt) (s : GameState) :
    (s = e.gameState → GameEngine.SetGameState e s = (e, [])) ∧
    (s ≠ e.gameState →
       (GameEngine.SetGameState e s).1 = { e with gameState := s } ∧
       (GameEngine.SetGameState e s).2 = (if e.callbacks s then [s] else []) ∧
       (e.callbacks s = true → (GameEngine.SetGameState e s).2.count s = 1) ∧
       (e.callbacks s = false → (GameEngine.SetGameState e s).2 = [])) := by
  constructor
  · intro hs
    unfold GameEngine.SetGameState
    rw [if_pos hs.symm]
  · intro hne
    have h : ¬ (e.gameState = s) := fun hh => hne hh.symm
    unfold GameEngine.SetGameState
    rw [if_neg h]
    by_cases hc : e.callbacks s = true
    · simp [hc]
    · have hc2 : e.callbacks s = false := by simpa using hc
      simp [hc2]

/-- C6 witness: on menuEngine (state Loading, callback registered for
MainMenu only), setting Loading is a no-op, setting MainMenu fires its
callback exactly once, and setting Racing fires nothing. -/
theorem c6_set_state_witness :
    GameEngine.SetGameState menuEngine GameState.Loading = (menuEngine, []) ∧
    (GameEngine.SetGameState menuEngine GameState.MainMenu).2.count
        GameState.MainMenu = 1 ∧
    (GameEngine.SetGameState menuEngine GameState.Racing).2 = [] := by
  refine ⟨?_, ?_, ?_⟩
  · exact (c6_set_state menuEngine GameState.Loading).1 rfl
  · exact ((c6_set_state menuEngine GameState.MainMenu).2 (by decide)).2.2.1 (by decide)
  · exact ((c6_set_state menuEngine GameState.Racing).2 (by decide)).2.2.2 (by decide)

/-- C1 (the divergence): Run on an uninitialized engine returns -1 without
looping; but on an initialized engine whose loop ends because
RequestExit(5) was called, the exit flag and code are set when the loop
ends, yet Run returns 0: the Shutdown it performs first resets exitCode_ to 0
(GameEngine.cpp line 117) and line 209 then returns that reset field, not the
code RequestExit stored. -/
theorem c1_run_exit_code :
    (GameEngine.Run uninitEngine [some 5]).1 = -1 ∧
    (GameEngine.runLoop loadedEngine [some 5]).exitRequested = true ∧
    (GameEngine.runLoop loadedEngine [some 5]).exitCode = 5 ∧
    (GameEngine.Run loadedEngine [some 5]).1 = 0 ∧
    (GameEngine.Run loadedEngine [some 5]).1 ≠ 5 := by
  refine ⟨rfl, rfl, rfl, rfl, by decide⟩

/-- C2: over a run of main-loop iterations fed nonnegative raw deltas and
starting from a zero accumulator, the total number of fixed-step iterations
performed (each one FixedUpdate(fixedTimeStep_) call and one subtraction of
the step) equals floor((dt_1 + ... + dt_n) / step) for the clamped deltas
dt_i, each of which satisfies dt_i <= MAX_TIMESTEP, and the accumulator
carries the remainder across frames. -/
theorem c2_fixed_step_law (step : ℚ) (hstep : 0 < step) (raws : List ℚ)
    (hraws : ∀ r ∈ raws, 0 ≤ r) :
    (((loopRun step 0 raws).2.map FrameOut.fixedCalls).sum
       = ⌊(raws.map clampDelta).sum / step⌋₊) ∧
    ((loopRun step 0 raws).1
       = (raws.map clampDelta).sum
           - (⌊(raws.map clampDelta).sum / step⌋₊ : ℚ) * step) ∧
    (∀ dt ∈ raws.map clampDelta, dt ≤ MAX_TIMESTEP) := by
  have h := loopRun_spec step hstep raws 0 le_rfl hstep hraws
  refine ⟨?_, ?_, ?_⟩
  · simpa using h.1
  · simpa using h.2
  · intro dt hdt
    obtain ⟨r, hr, rfl⟩ := List.mem_map.mp hdt
    exact clampDelta_le_max r

/-- C2 witness: with the default fixed step 1/60 and frames of 1/30 and 1/40
seconds, 3 fixed ticks are issued and the accumulator retains 1/120. -/
theorem c2_fixed_step_law_witness :
    ((loopRun FIXED_TIMESTEP 0 [1/30, 1/40]).2.map FrameOut.fixedCalls).sum = 3 ∧
    (loopRun FIXED_TIMESTEP 0 [1/30, 1/40]).1 = 1/120 := by
  have h := c2_fixed_step_law FIXED_TIMESTEP (by norm_num [FIXED_TIMESTEP])
      [1/30, 1/40] (by intro r hr; fin_cases hr <;> norm_num)
  have hsum : (([1/30, 1/40] : List ℚ).map clampDelta).sum = 7/120 := by
    norm_num [clampDelta, MAX_TIMESTEP]
  have hfl : ⌊((7:ℚ)/120) / FIXED_TIMESTEP⌋₊ = 3 := by
    rw [show ((7:ℚ)/120) / FIXED_TIMESTEP = 7/2 by norm_num [FIXED_TIMESTEP]]
    rw [Nat.floor_eq_iff (by norm_num)]
    norm_num
  constructor
  · rw [h.1, hsum, hfl]
  · rw [h.2.1, hsum, hfl]
    norm_num [FIXED_TIMESTEP]

/-- The Update calls of a run are exactly the clamped deltas, frame by
frame. -/
theorem loopRun_update_calls (step : ℚ) (raws : List ℚ) :
    ∀ acc : ℚ, (loopRun step acc raws).2.map FrameOut.updateCall
      = raws.map clampDelta := by
  induction raws with
  | nil =>
    intro acc
    simp [loopRun]
  | cons raw rest ih =>
    intro acc
    simp [loopRun, loopIter, ih]

/-- C8: in every iteration the delta passed to Update is the measured raw
delta clamped from above at MAX_TIMESTEP (the clamp is exactly the minimum
with MAX_TIMESTEP), so no Update call of any run receives a delta above
MAX_TIMESTEP = 1/30. -/
theorem c8_delta_clamp (step acc : ℚ) (raws : List ℚ) :
    ((loopRun step acc raws).2.map FrameOut.updateCall = raws.map clampDelta) ∧
    (∀ rawDt : ℚ, clampDelta rawDt = min rawDt MAX_TIMESTEP) ∧
    (∀ o ∈ (loopRun step acc raws).2, o.updateCall ≤ MAX_TIMESTEP) := by
  refine ⟨loopRun_update_calls step raws acc, ?_, ?_⟩
  · intro rawDt
    unfold clampDelta
    split
    · exact (min_eq_right (le_of_lt (by assumption))).symm
    · exact (min_eq_left (le_of_not_lt (by assumption))).symm
  · intro o ho
    have h1 : o.updateCall ∈ (loopRun step acc raws).2.map FrameOut.updateCall :=
      List.mem_map_of_mem FrameOut.updateCall ho
    rw [loopRun_update_calls step raws acc] at h1
    obtain ⟨r, hr, hre⟩ := List.mem_map.mp h1
    rw [← hre]
    exact clampDelta_le_max r

/-- C8 witness: a stalled 1/4 second frame reaches Update as MAX_TIMESTEP,
and the clamp of 1/4 is its minimum with MAX_TIMESTEP. -/
theorem c8_delta_clamp_witness :
    (loopRun FIXED_TIMESTEP 0 [1/4]).2.map FrameOut.updateCall = [MAX_TIMESTEP] ∧
    clampDelta (1/4) = min (1/4) MAX_TIMESTEP := by
  have h := c8_delta_clamp FIXED_TIMESTEP 0 [1/4]
  constructor
  · rw [h.1]
    norm_num [clampDelta, MAX_TIMESTEP]
  · exact h.2.1 (1/4)

/-- The per-entry Shutdown actions of a not-yet-stopped worker include the
stop-flag write and the join, and the unpark when it is paused. -/
theorem stopActs_mem (p : String × WorkerInfo)
    (hne : p.2.status ≠ ThreadStatus.Stopped) :
    SAction.setStop p.1 ∈ stopActs p ∧ SAction.join p.1 ∈ stopActs p ∧
    (p.2.status = ThreadStatus.Paused → SAction.unpark p.1 ∈ stopActs p) := by
  unfold stopActs
  rw [if_neg hne]
  refine ⟨by simp, by simp, ?_⟩
  intro hp
  rw [if_pos hp]
  simp

/-- C5: Shutdown on an initialized registry empties both tables, zeroes
active_count and clears the initialized flag; its trace sets the stop flag
of, and joins, every worker not already Stopped (unparking the paused ones),
and all of those actions come before the final drop of the descriptors. -/
theorem c5_shutdown (tm : TMState) (h : tm.initialized = true) :
    (ThreadManager.Shutdown tm).1.threads = [] ∧
    (ThreadManager.Shutdown tm).1.pools = [] ∧
    (ThreadManager.Shutdown tm).1.activeThreadCount = 0 ∧
    (ThreadManager.Shutdown tm).1.initialized = false ∧
    (∀ p ∈ tm.threads, p.2.status ≠ ThreadStatus.Stopped →
       SAction.setStop p.1 ∈ (ThreadManager.Shutdown tm).2 ∧
       SAction.join p.1 ∈ (ThreadManager.Shutdown tm).2 ∧
       (p.2.status = ThreadStatus.Paused →
          SAction.unpark p.1 ∈ (ThreadManager.Shutdown tm).2)) ∧
    (∃ pre, (ThreadManager.Shutdown tm).2 = pre ++ [SAction.dropAll] ∧
       ∀ p ∈ tm.threads, p.2.status ≠ ThreadStatus.Stopped →
         SAction.setStop p.1 ∈ pre ∧ SAction.join p.1 ∈ pre) := by
  have hsh : ThreadManager.Shutdown tm
      = ({ tm with threads := [], pools := [],
                   activeThreadCount := 0, initialized := false },
         (tm.threads.map stopActs).join ++ [SAction.dropAll]) := by
    unfold ThreadManager.Shutdown
    rw [h]
    rfl
  have hjoin : ∀ p ∈ tm.threads, ∀ a ∈ stopActs p,
      a ∈ (tm.threads.map stopActs).join := by
    intro p hp a ha
    exact List.mem_join.mpr ⟨stopActs p, List.mem_map_of_mem stopActs hp, ha⟩
  rw [hsh]
  refine ⟨rfl, rfl, rfl, rfl, ?_, ?_⟩
  · intro p hp hne
    have hm := stopActs_mem p hne
    refine ⟨List.mem_append_left _ (hjoin p hp _ hm.1),
            List.mem_append_left _ (hjoin p hp _ hm.2.1), ?_⟩
    intro hpa
    exact List.mem_append_left _ (hjoin p hp _ (hm.2.2 hpa))
  · refine ⟨(tm.threads.map stopActs).join, rfl, ?_⟩
    intro p hp hne
    have hm := stopActs_mem p hne
    exact ⟨hjoin p hp _ hm.1, hjoin p hp _ hm.2.1⟩

/-- C5 witness: shutting tmBusy down (a paused, a running and a stopped
worker) empties the tables, zeroes the counter, and the trace unparks and
joins the paused worker A. -/
theorem c5_shutdown_witness :
    (ThreadManager.Shutdown tmBusy).1.threads = [] ∧
    (ThreadManager.Shutdown tmBusy).1.pools = [] ∧
    (ThreadManager.Shutdown tmBusy).1.activeThreadCount = 0 ∧
    (ThreadManager.Shutdown tmBusy).1.initialized = false ∧
    SAction.unpark "A" ∈ (ThreadManager.Shutdown tmBusy).2 ∧
    SAction.join "A" ∈ (ThreadManager.Shutdown tmBusy).2 := by
  have h := c5_shutdown tmBusy rfl
  have hA := h.2.2.2.2.1 ("A", mkW ThreadStatus.Paused) (by decide) (by decide)
  exact ⟨h.1, h.2.1, h.2.2.1, h.2.2.2.1, hA.2.2 (by decide), hA.2.1⟩

/-- A worker step keeps the status consistent with the program point. -/
theorem wstep_status {w w2 : WState} {d : ℤ} (hs : WStep w d w2)
    (h : w.status = pcStatus w.pc) : w2.status = pcStatus w2.pc := by
  cases hs with
  | startRun hpc => simp [pcStatus]
  | incrCnt hpc =>
    rw [hpc] at h
    simpa [pcStatus] using h
  | pauseEnter hpc hp => simp [pcStatus]
  | wake hpc hw => cases hstop : w.stopFlag <;> simp [hstop, pcStatus]
  | bodyIter hpc hw => exact h
  | loopExit hpc =>
    rw [hpc] at h
    simpa [pcStatus] using h
  | stopping hpc => simp [pcStatus]
  | decrCnt hpc =>
    rw [hpc] at h
    simpa [pcStatus] using h
  | stopped hpc => simp [pcStatus]
  | setStop => simpa using h
  | setPause hst => simpa using h
  | clearPause hst => simpa using h

/-- The counter delta of a worker step matches the crossing of the
counted-window boundary. -/
theorem wstep_cnt {w w2 : WState} {d : ℤ} (hs : WStep w d w2) :
    d + (if pcCounted w.pc then (1 : ℤ) else 0)
      = (if pcCounted w2.pc then (1 : ℤ) else 0) := by
  cases hs with
  | startRun hpc => simp [hpc, pcCounted]
  | incrCnt hpc => simp [hpc, pcCounted]
  | pauseEnter hpc hp => simp [hpc, pcCounted]
  | wake hpc hw => cases hstop : w.stopFlag <;> simp [hpc, hstop, pcCounted]
  | bodyIter hpc hw => simp
  | loopExit hpc => simp [hpc, pcCounted]
  | stopping hpc => simp [hpc, pcCounted]
  | decrCnt hpc => simp [hpc, pcCounted]
  | stopped hpc => simp [hpc, pcCounted]
  | setStop => simp
  | setPause hst => simp
  | clearPause hst => simp

/-- The protocol invariant: the counter equals the number of workers between
their increment and their decrement, and every status is the last one the
wrapper wrote at the current program point. -/
def RegInv (s : RegSys) : Prop :=
  s.cnt = (cntCount s.workers : ℤ) ∧ ∀ w ∈ s.workers, w.status = pcStatus w.pc

/-- Every reachable registry state satisfies the protocol invariant. -/
theorem reach_inv {s : RegSys} (h : Reach s) : RegInv s := by
  induction h with
  | init flags =>
    constructor
    · have hz : cntCount (flags.map initW) = 0 := by
        apply List.countP_eq_zero.mpr
        intro a ha
        obtain ⟨b, hb, rfl⟩ := List.mem_map.mp ha
        simp [initW, pcCounted]
      simp [hz]
    · intro w hw
      obtain ⟨b, hb, rfl⟩ := List.mem_map.mp hw
      rfl
  | step hrs hst ih =>
    cases hst with
    | step pre post w w2 d cnt hw =>
      constructor
      · have hc := wstep_cnt hw
        have h1 := ih.1
        simp only [cntCount, List.countP_append, List.countP_cons] at h1 ⊢
        cases hcw : pcCounted w.pc <;> cases hcw2 : pcCounted w2.pc <;>
          simp [hcw, hcw2] at hc h1 ⊢ <;> omega
      · intro x hx
        rcases List.mem_append.mp hx with hx1 | hx2
        · exact ih.2 x (List.mem_append_left _ hx1)
        · rcases List.mem_cons.mp hx2 with rfl | hx3
          · exact wstep_status hw
              (ih.2 w (List.mem_append_right _ (List.mem_cons_self w post)))
          · exact ih.2 x (List.mem_append_right _ (List.mem_cons_of_mem w hx3))

/-- Pointwise agreement of the two counts gives equal counts. -/
theorem cntCount_eq_liveCount (l : List WState)
    (h : ∀ w ∈ l, pcCounted w.pc = statusLive w.status) :
    cntCount l = liveCount l := by
  unfold cntCount liveCount
  induction l with
  | nil => rfl
  | cons a t ih =>
    rw [List.countP_cons, List.countP_cons,
        h a (List.mem_cons_self a t),
        ih (fun w hw => h w (List.mem_cons_of_mem a hw))]

/-- C3, corrected: in every reachable state in which no worker stands between
a status write and the matching counter update (after status = Running and
before the increment, or after status = Stopping and before the decrement),
the counter equals the number of workers whose status is Running or
Paused. -/
theorem c3_active_count_stable (s : RegSys) (hr : Reach s)
    (hstable : ∀ w ∈ s.workers, w.pc ≠ WPC.incr ∧ w.pc ≠ WPC.decr) :
    s.cnt = (liveCount s.workers : ℤ) := by
  have hinv := reach_inv hr
  rw [hinv.1]
  have he : cntCount s.workers = liveCount s.workers := by
    apply cntCount_eq_liveCount
    intro w hw
    have hst := hinv.2 w hw
    have hp := hstable w hw
    rw [hst]
    cases hpc : w.pc <;> simp_all [pcCounted, pcStatus, statusLive]
  rw [he]

/-- C3, the claim as stated is false: the state reached after a single
freshly spawned worker executes line 122 (status = Running) and has not yet
executed the increment on line 123 is reachable, its worker count in
Running-or-Paused is 1, and the counter still reads 0. -/
theorem c3_active_count_counterexample :
    Reach { workers := [cexW], cnt := 0 } ∧
    ¬ (({ workers := [cexW], cnt := 0 } : RegSys).cnt
        = (liveCount ({ workers := [cexW], cnt := 0 } : RegSys).workers : ℤ)) := by
  constructor
  · have h0 : Reach { workers := [initW false], cnt := 0 } := by
      have h := Reach.init [false]
      simpa using h
    have hw : WStep (initW false) 0 cexW :=
      WStep.startRun (initW false) rfl
    have hst : SysStep { workers := [initW false], cnt := 0 }
        { workers := [cexW], cnt := 0 } := by
      have h := SysStep.step [] [] (initW false) cexW 0 0 hw
      simpa using h
    exact Reach.step h0 hst
  · decide

/-- C3 witness: the initial state of one freshly created worker is reachable,
stands outside both windows, and there the counter 0 equals the
Running-or-Paused count 0. -/
theorem c3_active_count_witness : (0 : ℤ) = (liveCount [initW true] : ℤ) := by
  have h0 : Reach { workers := [initW true], cnt := 0 } := by
    have h := Reach.init [true]
    simpa using h
  have h := c3_active_count_stable { workers := [initW true], cnt := 0 } h0 (by decide)
  simpa using h

end CarGame
